import Mathlib

set_option maxRecDepth 4000

/-
  Verification development for the RSim simulation (map / element / food /
  entity / save modules).  The Python source is shallowly embedded:

  * property setters become pure functions (`setPts`, `setEnergy`, `applyTime`,
    `setXE`, `setYE`); a setter that raises is an `Except`;
  * the class-level live lists (`Food.list`, `Entity.list`) and the id counter
    `Entity.nEntities` become explicit components of `SimState`;
  * the binary codec works on `List Nat` byte strings, big-endian, exactly as
    `Save._write_int` / `Save._read_int` do;
  * randomness (`random.choices` in `Entity.rdmMove`, `Map.rmdCoord` in
    `Food.generate`) is an oracle argument, universally quantified in theorems;
  * `Entity.moveTowardsFood` compares `math.sqrt` distances; for the integer
    coordinates involved (squared distances up to 2*499^2) the float
    comparisons against the range 10 and between in-range distances agree
    exactly with comparisons of the integer squared distances, which is what
    the embedding uses.
-/

namespace RSim

/-- Entity.ENERGY_MAX. -/
def ENERGY_MAX : Int := 9999

/-- Entity.ENERGY_DEF. -/
def ENERGY_DEF : Int := 200

/-- Entity.TIME_MAX. -/
def TIME_MAX : Int := 4000

/-- Entity.TIME_IN_AGE. -/
def TIME_IN_AGE : Int := 40

/-- Entity.MAX_ID = 2 ** (NBYTES_ID * 8) with NBYTES_ID = 2. -/
def MAX_ID : Nat := 2 ^ 16

/-- Food.PTS_MAX = 2 ** (NBYTES_PTS * 8) with NBYTES_PTS = 2. -/
def PTS_MAX : Int := 2 ^ 16

/-- Food.PTS_DEFAULT. -/
def PTS_DEFAULT : Int := 100

/-- Entity.RANGE_DEF, the foraging range. -/
def RANGE_DEF : Int := 10

/-- Entity.AGE_REPROD = range(18, 60), lower bound. -/
def AGE_REPROD_LO : Int := 18

/-- Entity.AGE_REPROD = range(18, 60), upper bound (exclusive). -/
def AGE_REPROD_HI : Int := 60

/-- Entity.MIN_REPROD. -/
def MIN_REPROD : Int := 500

/-- Entity.REPROD, the reproduction energy cost. -/
def REPROD : Int := 200

/-- Save.TIME_MAX = 2 ** (NBYTES_TIME * 8) with NBYTES_TIME = 8. -/
def SAVE_TIME_MAX : Int := 2 ^ 64

/-- The map dimensions (the tuple stored in `Map.size`). -/
structure MapSize where
  w : Int
  h : Int
deriving DecidableEq, Repr

/-- A Food object: position plus point value. -/
structure Food where
  x : Int
  y : Int
  pts : Int
deriving DecidableEq, Repr

/-- An Entity object: position, energy, elapsed time, derived age, id. -/
structure Entity where
  x : Int
  y : Int
  energy : Int
  time : Int
  age : Int
  id : Nat
deriving DecidableEq, Repr

/-- Food.pts setter: out of (0, PTS_MAX] resets to the default, else keeps. -/
def setPts (v : Int) : Int :=
  if 0 < v ∧ v ≤ PTS_MAX then v else PTS_DEFAULT

/-- Entity.energy setter: clamps above ENERGY_MAX and below 0. -/
def setEnergy (v : Int) : Int :=
  if v > ENERGY_MAX then ENERGY_MAX
  else if v < 0 then 0
  else v

/-- Entity.time setter: inside range(TIME_MAX) stores the value and recomputes
age; outside stores -1 and forces energy and age to 0. -/
def applyTime (e : Entity) (v : Int) : Entity :=
  if 0 ≤ v ∧ v < TIME_MAX then { e with time := v, age := v / TIME_IN_AGE }
  else { e with time := -1, energy := 0, age := 0 }

/-- Element.x setter: raises ValueError unless the value is in range(width). -/
def setXE (size : MapSize) (v : Int) : Except String Int :=
  if 0 ≤ v ∧ v < size.w then .ok v else .error "x out of range"

/-- Element.y setter: raises ValueError unless the value is in range(height). -/
def setYE (size : MapSize) (v : Int) : Except String Int :=
  if 0 ≤ v ∧ v < size.h then .ok v else .error "y out of range"

/-- Food.__init__ via Element.__init__: coordinates through the validating
setters, then the pts setter. -/
def foodNew (size : MapSize) (coord : Int × Int) (pts : Int) : Except String Food := do
  let x ← setXE size coord.1
  let y ← setYE size coord.2
  .ok { x := x, y := y, pts := setPts pts }

/-- The update to Entity.nEntities in Entity.__init__:
`nEntities + 1 if nEntities < MAX_ID else 1`. -/
def bumpId (n : Nat) : Nat :=
  if n < MAX_ID then n + 1 else 1

/-- Entity.__init__ plus the counter bump: coordinates through the validating
setters, then the energy setter, then the time setter (which may zero the
energy), then a fresh id from the bumped counter.  Returns the new entity and
the new counter. -/
def entityNew (size : MapSize) (coord : Int × Int) (energy time : Int) (n : Nat) :
    Except String (Entity × Nat) := do
  let x ← setXE size coord.1
  let y ← setYE size coord.2
  let e0 : Entity := { x := x, y := y, energy := setEnergy energy, time := 0, age := 0, id := 0 }
  let e1 := applyTime e0 time
  let n1 := bumpId n
  .ok ({ e1 with id := n1 }, n1)

/-- Squared Euclidean distance between two grid points (see the header note on
why this is an exact model of the float comparisons in the source). -/
def sqDist (ax ay bx b2 : Int) : Int :=
  (ax - bx) ^ 2 + (ay - b2) ^ 2

/-- The generator inside Entity.eat:
`next((food for food in Food.list if food.x == self.x and food.y == self.y), None)`,
i.e. the first food in list order at the given position. -/
def findFoodAt (x y : Int) : List Food → Option Food
  | [] => none
  | f :: fs => if f.x = x ∧ f.y = y then some f else findFoodAt x y fs

/-- `Food.list.remove(food_at_location)`: removes the first food at the given
position (list.remove compares by identity here, and the object removed is the
first one at that position). -/
def eatRemove (x y : Int) : List Food → List Food
  | [] => []
  | f :: fs => if f.x = x ∧ f.y = y then fs else f :: eatRemove x y fs

/-- Entity.eat: if energy is below the maximum and some food is co-located,
add its points (capped through the energy setter) and remove that food. -/
def eat (foods : List Food) (e : Entity) : Entity × List Food :=
  if e.energy < ENERGY_MAX then
    match findFoodAt e.x e.y foods with
    | some f =>
        ({ e with energy := setEnergy (min ENERGY_MAX (e.energy + f.pts)) },
         eatRemove e.x e.y foods)
    | none => (e, foods)
  else (e, foods)

/-- Entity.reproduction: when the age is in AGE_REPROD and energy is at least
MIN_REPROD, pay the cost and create a child at the parent coordinate with
default energy and time 0.  `Entity.new` validates the parent coordinate,
which is in bounds for a live parent, so the child is built directly; its
time setter stores 0 and age 0 // 40 = 0. -/
def reproduction (e : Entity) (n : Nat) : Entity × Nat × Option Entity :=
  if AGE_REPROD_LO ≤ e.age ∧ e.age < AGE_REPROD_HI ∧ MIN_REPROD ≤ e.energy then
    let e1 := { e with energy := setEnergy (e.energy - REPROD) }
    let n1 := bumpId n
    let baby : Entity :=
      { x := e1.x, y := e1.y, energy := setEnergy ENERGY_DEF, time := 0, age := 0, id := n1 }
    (e1, n1, some baby)
  else (e, n, none)

/-- Entity.moveTowardsFood, the selection part: the food within range whose
distance is strictly smaller than every earlier candidate (ties keep the
first seen in list order). -/
def closestFood (e : Entity) (foods : List Food) : Option Food :=
  (foods.foldl (fun acc f =>
      let d := sqDist e.x e.y f.x f.y
      match acc with
      | none => if d ≤ RANGE_DEF ^ 2 then some (f, d) else none
      | some (g, dmin) =>
          if d ≤ RANGE_DEF ^ 2 ∧ d < dmin then some (f, d) else some (g, dmin))
    none).map Prod.fst

/-- `int(d / abs(d))` for d ≠ 0, 0 otherwise: the per-axis unit step. -/
def signStep (d : Int) : Int :=
  if d = 0 then 0 else if d < 0 then -1 else 1

/-- Entity.moveTowardsFood: step one unit toward the selected food on each
axis independently; none when no food is in range. -/
def moveTowardsFood (foods : List Food) (e : Entity) : Option Entity :=
  match closestFood e foods with
  | some f =>
      some { e with x := e.x + signStep (f.x - e.x), y := e.y + signStep (f.y - e.y) }
  | none => none

/-- The 3x3 Moore offsets in the order produced by the comprehension in
Entity.possibleMoves (dx outer, dy inner). -/
def MOORE : List (Int × Int) :=
  [(-1, -1), (-1, 0), (-1, 1), (0, -1), (0, 0), (0, 1), (1, -1), (1, 0), (1, 1)]

/-- Entity.possibleMoves: the Moore offsets that keep the entity on the map. -/
def possibleMoves (size : MapSize) (e : Entity) : List (Int × Int) :=
  MOORE.filter fun d =>
    decide (0 ≤ e.x + d.1 ∧ e.x + d.1 < size.w ∧ 0 ≤ e.y + d.2 ∧ e.y + d.2 < size.h)

/-- Entity.rdmMove: `choices(self.possibleMoves())[0]` picks some element of
the list; the oracle `c` selects which. -/
def rdmMove (size : MapSize) (c : Nat) (e : Entity) : Entity :=
  let pm := possibleMoves size e
  let d := pm.getD (c % pm.length) (0, 0)
  { e with x := e.x + d.1, y := e.y + d.2 }

/-- Result of one per-agent tick (Entity.move): the updated entity, the food
list, the id counter, and the child if reproduction fired. -/
structure TickResult where
  ent : Entity
  foods : List Food
  n : Nat
  baby : Option Entity
deriving DecidableEq, Repr

/-- Entity.move, the per-agent tick: energy - 1 through the setter, time + 1
through the setter, eat, reproduction, then movement (toward food in range,
else a random move). -/
def tick (size : MapSize) (foods : List Food) (n : Nat) (c : Nat) (e : Entity) :
    TickResult :=
  let e1 := { e with energy := setEnergy (max 0 (e.energy - 1)) }
  let e2 := applyTime e1 (e1.time + 1)
  let p3 := eat foods e2
  let p4 := reproduction p3.1 n
  let e5 := match moveTowardsFood p3.2 p4.1 with
            | some e' => e'
            | none => rdmMove size c p4.1
  ⟨e5, p3.2, p4.2.1, p4.2.2⟩

/-- Entity.survive: dead when energy ≤ 0 or age > TIME_MAX. -/
def survive (e : Entity) : Bool :=
  if e.energy ≤ 0 ∨ TIME_MAX < e.age then false else true

/-- The global simulation state: the class-level lists `Food.list` and
`Entity.list`, the id counter `Entity.nEntities`, the class attribute
`Map.size`, the Save object's simulation time, and `Food.maxFoods`. -/
structure SimState where
  foods : List Food
  entities : List Entity
  nEntities : Nat
  mapSize : MapSize
  saveTime : Int
  maxFoods : Nat
deriving DecidableEq, Repr

/-- Save.time setter: inside range(2^64) stores the value, outside stores -1
(the Save object also zeroes two unused attributes, which have no reader). -/
def saveSetTime (v : Int) : Int :=
  if 0 ≤ v ∧ v < SAVE_TIME_MAX then v else -1

/-- Food.generate: no-op at maxFoods capacity; otherwise Map.rmdCoord samples
a free coordinate (`rho`, the sampling oracle: `none` models the capacity
short-circuit) and a Food with default points is created there.  A genuine
sample is free and in bounds, so `foodNew` succeeds on it; the error branch is
unreachable for such samples. -/
def foodGenerate (st : SimState) (rho : Option (Int × Int)) : SimState :=
  if st.foods.length < st.maxFoods then
    match rho with
    | some c =>
        match foodNew st.mapSize c PTS_DEFAULT with
        | .ok f => { st with foods := st.foods ++ [f] }
        | .error _ => st
    | none => st
  else st

/-- Whether the per-agent tick of `e` can reach the reproduction branch:
the age after the energy and time phases is in the reproduction window.
Used only as a termination measure for the sweep loop (a newborn has time 0,
hence age 0 after its own tick, so it can never reproduce in its turn). -/
def mayReproduce (e : Entity) : Bool :=
  let e1 := { e with energy := setEnergy (max 0 (e.energy - 1)) }
  let e2 := applyTime e1 (e1.time + 1)
  decide (AGE_REPROD_LO ≤ e2.age ∧ e2.age < AGE_REPROD_HI)

/-- Termination measure for the sweep loop: each iteration removes one queue
element and can add at most one newborn, and only while consuming an element
that counts in `countP mayReproduce`. -/
def loopMeasure (todo : List Entity) : Nat :=
  todo.length + todo.countP mayReproduce

/-- The `for entity in Entity.list` sweep of RSim.step, as a zipper: `done`
holds the list entries before the iterator cursor, `todo` the entries from the
cursor on (newborns are appended at the end of the list, i.e. of `todo`).
Each fetched entity is ticked and, if it fails `survive`, removed from the
list at the cursor position; the CPython list iterator keeps its numeric
index, so the element that slid into the freed slot is stepped over: it moves
to `done` without being ticked (`queue.take 1`). -/
def stepLoop (size : MapSize) (sigma : Nat → Nat) (k : Nat) (foods : List Food) (n : Nat)
    (done todo : List Entity) : List Entity × List Food × Nat :=
  match todo with
  | [] => (done, foods, n)
  | e :: rest =>
    let r := tick size foods n (sigma k) e
    let queue := rest ++ r.baby.toList
    if survive r.ent then
      stepLoop size sigma (k + 1) r.foods r.n (done ++ [r.ent]) queue
    else
      stepLoop size sigma (k + 1) r.foods r.n (done ++ queue.take 1) (queue.drop 1)
termination_by loopMeasure todo
decreasing_by
  · -- the survivor case: the consumed head pays for the possible newborn
    rcases hb : (tick size foods n (sigma k) e).baby with _ | b
    · simp only [hb, Option.toList_none, List.append_nil, loopMeasure, List.length_cons,
        List.countP_cons]
      rcases hma : mayReproduce e <;> simp [hma] <;> omega
    · have hrep : ∀ (x : Entity) (m : Nat) (b2 : Entity),
          (reproduction x m).2.2 = some b2 →
          (AGE_REPROD_LO ≤ x.age ∧ x.age < AGE_REPROD_HI) ∧ b2.time = 0 := by
        intro x m b2 h
        rw [reproduction] at h
        split at h
        · next hc =>
            cases h
            exact ⟨⟨hc.1, hc.2.1⟩, rfl⟩
        · simp at h
      have hage : ∀ (fs : List Food) (x : Entity), ((eat fs x).1).age = x.age := by
        intro fs x
        rw [eat]
        split
        · split <;> rfl
        · rfl
      have hb' := hb
      simp only [tick] at hb'
      obtain ⟨hcage, hbt⟩ := hrep _ _ _ hb'
      rw [hage] at hcage
      have hme : mayReproduce e = true := by
        simp only [mayReproduce, decide_eq_true_eq]
        exact hcage
      have hmb : mayReproduce b = false := by
        have h40 : (1 : Int) / 40 = 0 := by decide
        norm_num [mayReproduce, applyTime, TIME_MAX, TIME_IN_AGE,
          AGE_REPROD_LO, AGE_REPROD_HI, hbt, h40]
      simp only [hb, Option.toList_some, loopMeasure, List.length_append, List.length_cons,
        List.length_singleton, List.countP_append, List.countP_cons, hme, hmb]
      simp
  · -- the death case: the cursor slides, dropping one queue element
    rcases hb : (tick size foods n (sigma k) e).baby with _ | b
    · simp only [hb, Option.toList_none, List.append_nil, loopMeasure, List.length_cons,
        List.countP_cons]
      cases rest with
      | nil => simp
      | cons h2 t =>
          simp only [List.drop_succ_cons, List.drop_zero, List.length_cons, List.countP_cons]
          rcases hma : mayReproduce e <;> rcases hmh : mayReproduce h2 <;>
            simp [hma, hmh] <;> omega
    · have hrep : ∀ (x : Entity) (m : Nat) (b2 : Entity),
          (reproduction x m).2.2 = some b2 →
          (AGE_REPROD_LO ≤ x.age ∧ x.age < AGE_REPROD_HI) ∧ b2.time = 0 := by
        intro x m b2 h
        rw [reproduction] at h
        split at h
        · next hc =>
            cases h
            exact ⟨⟨hc.1, hc.2.1⟩, rfl⟩
        · simp at h
      have hb' := hb
      simp only [tick] at hb'
      obtain ⟨-, hbt⟩ := hrep _ _ _ hb'
      have hmb : mayReproduce b = false := by
        have h40 : (1 : Int) / 40 = 0 := by decide
        norm_num [mayReproduce, applyTime, TIME_MAX, TIME_IN_AGE,
          AGE_REPROD_LO, AGE_REPROD_HI, hbt, h40]
      cases rest with
      | nil =>
          simp [hb, loopMeasure, List.countP_cons, hmb]
      | cons h2 t =>
          simp only [hb, Option.toList_some, List.cons_append, List.drop_succ_cons,
            List.drop_zero, loopMeasure, List.length_append, List.length_cons,
            List.length_singleton, List.countP_append, List.countP_cons, hmb]
          rcases hma : mayReproduce e <;> rcases hmh : mayReproduce h2 <;>
            simp [hma, hmh] <;> omega

/-- RSim.step: sweep all entities, then advance the Save time through its
setter, then make one Food generation attempt. -/
def step (st : SimState) (sigma : Nat → Nat) (rho : Option (Int × Int)) : SimState :=
  let r := stepLoop st.mapSize sigma 0 st.foods st.nEntities [] st.entities
  foodGenerate
    { st with entities := r.1, foods := r.2.1, nEntities := r.2.2,
              saveTime := saveSetTime (st.saveTime + 1) } rho

/-- Big-endian byte string of `v` on `s` bytes, as `int.to_bytes` produces
for values in range (low byte last). -/
def toBytesBE : Nat → Nat → List Nat
  | 0, _ => []
  | s + 1, v => toBytesBE s (v / 256) ++ [v % 256]

/-- `int.from_bytes(data, byteorder = big)`. -/
def fromBytesBE (bs : List Nat) : Nat :=
  bs.foldl (fun a b => a * 256 + b) 0

/-- One field of the save record: byte width, value, error label. -/
structure Field where
  sz : Nat
  val : Int
  name : String
deriving DecidableEq, Repr

/-- Save._write_int applied to a sequence of fields on an open file that was
just truncated by `open(path, wb)`: fields are checked against their byte
width and appended one after the other; the first failing field stops the
write, leaving the bytes already written in the file. -/
def writeSeq : List Field → List Nat × Option String
  | [] => ([], none)
  | f :: rest =>
    if 0 ≤ f.val ∧ f.val < 2 ^ (8 * f.sz) then
      let r := writeSeq rest
      (toBytesBE f.sz f.val.toNat ++ r.1, r.2)
    else ([], some f.name)

/-- The three fields Save._write_food writes per food. -/
def foodFields (f : Food) : List Field :=
  [⟨2, f.pts, "food.pts"⟩, ⟨2, f.x, "food.x"⟩, ⟨2, f.y, "food.y"⟩]

/-- The five fields Save._write_entity writes per entity. -/
def entityFields (e : Entity) : List Field :=
  [⟨2, (e.id : Int), "entity.id"⟩, ⟨2, e.x, "entity.x"⟩, ⟨2, e.y, "entity.y"⟩,
   ⟨2, e.energy, "entity.energy"⟩, ⟨2, e.time, "entity.time"⟩]

/-- Concatenation of the per-element field lists. -/
def flatAll (g : α → List β) : List α → List β
  | [] => []
  | a :: l => g a ++ flatAll g l

/-- The full field sequence of Save.save: the two 8-byte timestamps, the map
size, the food records with their 0 sentinel, the entity records with their 0
sentinel.  `stop` is the wall clock at save time, `starting` the wall clock
at process start. -/
def saveFields (st : SimState) (stop starting : Int) : List Field :=
  [⟨8, stop, "file.last_loading"⟩,
   ⟨8, st.saveTime + (stop - starting), "file.sim_time"⟩,
   ⟨2, st.mapSize.w, "map.size_x"⟩,
   ⟨2, st.mapSize.h, "map.size_y"⟩]
  ++ flatAll foodFields st.foods ++ [⟨2, 0, "food.end"⟩]
  ++ flatAll entityFields st.entities ++ [⟨2, 0, "entity.end"⟩]

/-- Save.save at the byte level: the content the target file holds afterwards
and the error, if a field failed its range check (the file was opened with
mode wb, so on failure the bytes written so far are what the file holds). -/
def saveBytes (st : SimState) (stop starting : Int) : List Nat × Option String :=
  writeSeq (saveFields st stop starting)

/-- Save.save including the best-effort backup copy made before the target is
reopened: returns (target content afterwards, backup content afterwards,
error).  `prev` is the target content before the call. -/
def saveFile (prev : List Nat) (st : SimState) (stop starting : Int) :
    List Nat × List Nat × Option String :=
  let r := saveBytes st stop starting
  (r.1, prev, r.2)

/-- Save._read_int: `file.read(size)` returns fewer than `size` bytes exactly
when the stream is shorter; then the length check fails with ValueError. -/
def readIntB (sz : Nat) (bytes : List Nat) (name : String) :
    Except String (Nat × List Nat) :=
  if bytes.length < sz then .error name
  else .ok (fromBytesBE (bytes.take sz), bytes.drop sz)

/-- Save._read_food: clears the food list (the `[]` accumulator the caller
passes), then reads (pts, x, y) records until a pts of 0; each record goes
through `Food.new`, whose coordinate setters can raise.  Returns the foods
accumulated so far and either the remaining bytes or the error. -/
def readFoodsLoop (size : MapSize) (acc : List Food) (bytes : List Nat) :
    List Food × Except String (List Nat) :=
  if bytes.length < 2 then (acc, .error "food.pts")
  else
    let pts := fromBytesBE (bytes.take 2)
    let r1 := bytes.drop 2
    if pts = 0 then (acc, .ok r1)
    else if r1.length < 2 then (acc, .error "food.x")
    else
      let x := fromBytesBE (r1.take 2)
      let r2 := r1.drop 2
      if r2.length < 2 then (acc, .error "food.y")
      else
        let y := fromBytesBE (r2.take 2)
        let r3 := r2.drop 2
        match foodNew size ((x : Int), (y : Int)) (pts : Int) with
        | .ok f => readFoodsLoop size (acc ++ [f]) r3
        | .error e => (acc, .error e)
termination_by bytes.length
decreasing_by simp [r3, r2, r1]; omega

/-- Save._read_entity: clears the entity list (the `[]` accumulator the
caller passes), then reads (id, x, y, energy, time) records until an id of 0.
The id read from the file is used only for the sentinel test: `Entity.new`
assigns a fresh id from the counter.  Returns the entities accumulated so
far, the counter, and either the remaining bytes or the error. -/
def readEntitiesLoop (size : MapSize) (acc : List Entity) (n : Nat) (bytes : List Nat) :
    List Entity × Nat × Except String (List Nat) :=
  if bytes.length < 2 then (acc, n, .error "entity.id")
  else
    let eid := fromBytesBE (bytes.take 2)
    let r1 := bytes.drop 2
    if eid = 0 then (acc, n, .ok r1)
    else if r1.length < 2 then (acc, n, .error "entity.x")
    else
      let x := fromBytesBE (r1.take 2)
      let r2 := r1.drop 2
      if r2.length < 2 then (acc, n, .error "entity.y")
      else
        let y := fromBytesBE (r2.take 2)
        let r3 := r2.drop 2
        if r3.length < 2 then (acc, n, .error "entity.energy")
        else
          let energy := fromBytesBE (r3.take 2)
          let r4 := r3.drop 2
          if r4.length < 2 then (acc, n, .error "entity.time")
          else
            let time := fromBytesBE (r4.take 2)
            let r5 := r4.drop 2
            match entityNew size ((x : Int), (y : Int)) (energy : Int) (time : Int) n with
            | .ok p => readEntitiesLoop size (acc ++ [p.1]) p.2 r5
            | .error e => (acc, n, .error e)
termination_by bytes.length
decreasing_by simp [r5, r4, r3, r2, r1]; omega

/-- Save.load: reads the two 8-byte timestamps (the second through the Save
time setter), assigns `Map.size` — a class-attribute assignment, which
replaces the property and therefore runs no validation — then the food
section, then the entity section.  Mutations made before an error persist;
in particular the entity list is only cleared when the entity section is
reached.  Returns (state, Save.last, error). -/
def load (st : SimState) (lastPrev : Int) (bytes : List Nat) :
    SimState × Int × Option String :=
  match readIntB 8 bytes "file.last_loading" with
  | .error m => (st, lastPrev, some m)
  | .ok (last, r1) =>
  match readIntB 8 r1 "file.sim_time" with
  | .error m => (st, (last : Int), some m)
  | .ok (t, r2) =>
  let st1 := { st with saveTime := saveSetTime (t : Int) }
  match readIntB 2 r2 "map.size_x" with
  | .error m => (st1, (last : Int), some m)
  | .ok (w, r3) =>
  match readIntB 2 r3 "map.size_y" with
  | .error m => (st1, (last : Int), some m)
  | .ok (h, r4) =>
  let st2 := { st1 with mapSize := ⟨(w : Int), (h : Int)⟩ }
  let pf := readFoodsLoop st2.mapSize [] r4
  let st3 := { st2 with foods := pf.1 }
  match pf.2 with
  | .error m => (st3, (last : Int), some m)
  | .ok r5 =>
  let pe := readEntitiesLoop st3.mapSize [] st3.nEntities r5
  let st4 := { st3 with entities := pe.1, nEntities := pe.2.1 }
  match pe.2.2 with
  | .error m => (st4, (last : Int), some m)
  | .ok _ => (st4, (last : Int), none)

/-- Cmd._spawn for `spawn food x y` with both coordinates parsed: the source
calls `Food.new((x, y))`, but `Food.new(cls, coord, pts)` declares `pts`
without a default value, so the call raises
`TypeError: new() missing 1 required positional argument: pts`
before any Food is constructed; the handler prints the error and the food
list is unchanged. -/
def spawnFoodAt (_st : SimState) (_x _y : Int) : Except String SimState :=
  .error "TypeError: new missing 1 required positional argument: pts"

/-- Cmd._spawn for `spawn entity x y`: `Entity.new((x, y), ENERGY_DEF)`. -/
def spawnEntityAt (st : SimState) (x y : Int) : Except String SimState :=
  match entityNew st.mapSize (x, y) ENERGY_DEF 0 st.nEntities with
  | .ok p => .ok { st with entities := st.entities ++ [p.1], nEntities := p.2 }
  | .error m => .error m

/-- Cmd.processCmd restricted to the spawn commands with explicit integer
coordinates (the dispatch path `processCmd → _spawn`). -/
def processSpawn (st : SimState) (kind : String) (x y : Int) :
    Except String SimState :=
  if kind = "entity" then spawnEntityAt st x y
  else if kind = "food" then spawnFoodAt st x y
  else .ok st

/-- A food coordinate pair lies on the map. -/
def InBoundsF (size : MapSize) (f : Food) : Prop :=
  0 ≤ f.x ∧ f.x < size.w ∧ 0 ≤ f.y ∧ f.y < size.h

/-- An entity coordinate pair lies on the map. -/
def InBoundsE (size : MapSize) (e : Entity) : Prop :=
  0 ≤ e.x ∧ e.x < size.w ∧ 0 ≤ e.y ∧ e.y < size.h

/-- A food as the setters can produce it, with a pts value that also fits its
2-byte field (the pts setter itself admits PTS_MAX = 65536, which does not). -/
def FoodSaveable (size : MapSize) (f : Food) : Prop :=
  InBoundsF size f ∧ 1 ≤ f.pts ∧ f.pts < PTS_MAX

/-- An entity as the setters can produce it, with all fields fitting their
2-byte record fields: in particular the elapsed time is a stored in-range
value, not the -1 reset marker. -/
def EntitySaveable (size : MapSize) (e : Entity) : Prop :=
  InBoundsE size e ∧ 0 ≤ e.energy ∧ e.energy ≤ ENERGY_MAX ∧
  0 ≤ e.time ∧ e.time < TIME_MAX ∧ 1 ≤ e.id ∧ e.id < MAX_ID

/-- A whole state whose save succeeds and whose records are well formed. -/
def SaveableState (st : SimState) (stop starting : Int) : Prop :=
  (∀ f ∈ st.foods, FoodSaveable st.mapSize f) ∧
  (∀ e ∈ st.entities, EntitySaveable st.mapSize e) ∧
  0 ≤ st.mapSize.w ∧ st.mapSize.w < PTS_MAX ∧
  0 ≤ st.mapSize.h ∧ st.mapSize.h < PTS_MAX ∧
  0 ≤ stop ∧ stop < SAVE_TIME_MAX ∧
  0 ≤ st.saveTime + (stop - starting) ∧ st.saveTime + (stop - starting) < SAVE_TIME_MAX

/-- The record tuple the round-trip preserves for an agent: coordinates,
energy, elapsed time (ids are reassigned on load). -/
def entProj (e : Entity) : Int × Int × Int × Int :=
  (e.x, e.y, e.energy, e.time)

/-- The full agent tuple named by the spec round-trip claim, id included. -/
def entIdProj (e : Entity) : Nat × Int × Int × Int × Int :=
  (e.id, e.x, e.y, e.energy, e.time)

/-- Bytes of one field, as Save._write_int emits them. -/
def encField (f : Field) : List Nat :=
  toBytesBE f.sz f.val.toNat

/-- Bytes of a field list. -/
def encAll (l : List Field) : List Nat :=
  flatAll encField l

/-- Whether a field value fits its byte width (the Save._write_int check). -/
def fitsB (f : Field) : Bool :=
  decide (0 ≤ f.val ∧ f.val < 2 ^ (8 * f.sz))

/-- Modelled from the claim wording of C3 step (1): energy decreases by 1,
floored at 0. -/
def specEnergyPhase (e : Entity) : Entity :=
  { e with energy := max 0 (e.energy - 1) }

/-- Modelled from the claim wording of C3 step (2): elapsed time increases by
1 through the time setter, recomputing the derived age. -/
def specTimePhase (e : Entity) : Entity :=
  applyTime e (e.time + 1)

/-- Modelled from the claim wording of C3 step (3): if energy < 9999, the
first co-located Food in list order has its pts added to energy capped at
9999 and is removed. -/
def specEatPhase (foods : List Food) (e : Entity) : Entity × List Food :=
  if e.energy < 9999 then
    match findFoodAt e.x e.y foods with
    | some f => ({ e with energy := min 9999 (e.energy + f.pts) }, eatRemove e.x e.y foods)
    | none => (e, foods)
  else (e, foods)

/-- C3 step (5): movement, toward the selected food in range, else random. -/
def specMovePhase (size : MapSize) (c : Nat) (foods : List Food) (e : Entity) : Entity :=
  match moveTowardsFood foods e with
  | some e' => e'
  | none => rdmMove size c e

/-- The per-agent tick as the spec phrases it: the five phases in order. -/
def specTick (size : MapSize) (foods : List Food) (n : Nat) (c : Nat) (e : Entity) :
    TickResult :=
  let e1 := specEnergyPhase e
  let e2 := specTimePhase e1
  let p3 := specEatPhase foods e2
  let p4 := reproduction p3.1 n
  ⟨specMovePhase size c p3.2 p4.1, p3.2, p4.2.1, p4.2.2⟩

/-- The id counter after k entity creations from a fresh process
(Entity.nEntities starts at 0). -/
def nthCounter (k : Nat) : Nat :=
  bumpId^[k] 0

theorem length_toBytesBE (s v : Nat) : (toBytesBE s v).length = s := by
  induction s generalizing v with
  | zero => rfl
  | succ s ih => simp [toBytesBE, ih]

theorem fromBytesBE_append_one (l : List Nat) (b : Nat) :
    fromBytesBE (l ++ [b]) = fromBytesBE l * 256 + b := by
  simp [fromBytesBE, List.foldl_append]

theorem fromBytes_toBytes (s v : Nat) (h : v < 256 ^ s) :
    fromBytesBE (toBytesBE s v) = v := by
  induction s generalizing v with
  | zero =>
      simp only [toBytesBE, fromBytesBE, List.foldl_nil]
      simp only [pow_zero] at h
      omega
  | succ s ih =>
      rw [toBytesBE, fromBytesBE_append_one, ih]
      · omega
      · rw [pow_succ] at h
        omega

theorem take_append_len {α} (l r : List α) (s : Nat) (h : l.length = s) :
    (l ++ r).take s = l := by
  subst h
  exact List.take_left l r

theorem drop_append_len {α} (l r : List α) (s : Nat) (h : l.length = s) :
    (l ++ r).drop s = r := by
  subst h
  exact List.drop_left l r

theorem readIntB_append (sz : Nat) (l r : List Nat) (name : String) (h : l.length = sz) :
    readIntB sz (l ++ r) name = .ok (fromBytesBE l, r) := by
  rw [readIntB, if_neg, take_append_len l r sz h, drop_append_len l r sz h]
  simp [h]

theorem writeSeq_err_none (l : List Field) :
    (writeSeq l).2 = none ↔ ∀ f ∈ l, 0 ≤ f.val ∧ f.val < 2 ^ (8 * f.sz) := by
  induction l with
  | nil => simp [writeSeq]
  | cons f rest ih =>
      rw [writeSeq]
      split
      · next hf => simpa [hf] using ih
      · next hf => simp [hf]

theorem writeSeq_bytes (l : List Field) :
    (writeSeq l).1 = encAll (l.takeWhile fitsB) := by
  induction l with
  | nil => rfl
  | cons f rest ih =>
      rw [writeSeq]
      split
      · next hf =>
          have hfb : fitsB f = true := by simp [fitsB, hf.1, hf.2]
          simp [List.takeWhile_cons, hfb, encAll, flatAll, encField, ih]
      · next hf =>
          have hfb : fitsB f = false := by simp [fitsB]; intro h1; by_contra h2; push_neg at h2; exact hf ⟨h1, by omega⟩
          simp [List.takeWhile_cons, hfb, encAll, flatAll]

theorem writeSeq_all_ok {l : List Field}
    (h : ∀ f ∈ l, 0 ≤ f.val ∧ f.val < 2 ^ (8 * f.sz)) :
    writeSeq l = (encAll l, none) := by
  induction l with
  | nil => rfl
  | cons f rest ih =>
      rw [writeSeq, if_pos (h f (by simp))]
      rw [ih fun g hg => h g (by simp [hg])]
      rfl

theorem flatAll_append (g : α → List β) (l1 l2 : List α) :
    flatAll g (l1 ++ l2) = flatAll g l1 ++ flatAll g l2 := by
  induction l1 with
  | nil => rfl
  | cons a l ih => simp [flatAll, ih]

theorem mem_flatAll (g : α → List β) {a : α} {l : List α} (ha : a ∈ l) {x : β}
    (hx : x ∈ g a) : x ∈ flatAll g l := by
  induction l with
  | nil => cases ha
  | cons b l ih =>
      rcases List.mem_cons.1 ha with h | h
      · subst h
        exact List.mem_append.2 (Or.inl hx)
      · exact List.mem_append.2 (Or.inr (ih h))

theorem nthCounter_of_le (k : Nat) (h : k ≤ MAX_ID) : nthCounter k = k := by
  induction k with
  | zero => rfl
  | succ k ih =>
      rw [nthCounter, Function.iterate_succ_apply']
      have hk := ih (by omega)
      rw [nthCounter] at hk
      rw [hk, bumpId, if_pos (by omega)]

/-- C5 counterexample: the pts setter admits 65536 (PTS_MAX is 2^16, not
2^16 - 1), so the claimed invariant pts ≤ 65535 fails and the claimed reset
of any value outside [1, 65535] does not happen at 65536. -/
theorem pts_setter_counterexample :
    setPts 65536 = 65536 ∧ setPts 65536 ≠ 100 ∧ ¬(setPts 65536 ≤ 65535) := by
  refine ⟨?_, ?_, ?_⟩ <;> decide

/-- C5 (amended): after construction or assignment the invariant is
1 ≤ pts ≤ 65536; a value outside [1, 65536] resets pts to the default 100
rather than being rejected, and an in-range value is stored unchanged;
Food construction stores exactly what the setter yields. -/
theorem pts_setter_spec (v : Int) :
    (1 ≤ setPts v ∧ setPts v ≤ PTS_MAX) ∧
    (¬(1 ≤ v ∧ v ≤ PTS_MAX) → setPts v = PTS_DEFAULT) ∧
    ((1 ≤ v ∧ v ≤ PTS_MAX) → setPts v = v) ∧
    (∀ (size : MapSize) (coord : Int × Int) (p : Int) (f : Food),
      foodNew size coord p = .ok f → f.pts = setPts p) := by
  refine ⟨?_, ?_, ?_, ?_⟩
  · rw [setPts]
    split
    · next h => exact ⟨by omega, h.2⟩
    · norm_num [PTS_DEFAULT, PTS_MAX]
  · intro hv
    rw [setPts, if_neg]
    intro h
    exact hv ⟨by omega, h.2⟩
  · intro hv
    rw [setPts, if_pos ⟨by omega, hv.2⟩]
  · intro size coord p f hok
    rcases hx : setXE size coord.1 with mx | vx <;>
      rcases hy : setYE size coord.2 with my | vy <;>
      simp [foodNew, hx, hy, bind, Except.bind] at hok
    rw [← hok]

/-- C5 witness: 70000 is out of range and resets to the default 100, and the
in-range value 100 is stored unchanged. -/
theorem pts_setter_spec_witness :
    setPts 70000 = PTS_DEFAULT ∧ setPts 100 = 100 :=
  ⟨(pts_setter_spec 70000).2.1 (by norm_num [PTS_MAX]),
   (pts_setter_spec 100).2.2.1 (by norm_num [PTS_MAX])⟩

/-- C6 counterexample: MAX_ID is 2^16 = 65536, so after 65536 creations from
a fresh counter the assigned id is 65536, outside the claimed range
[1, 65535], and the wrap back to 1 has not yet happened. -/
theorem id_wrap_counterexample :
    nthCounter 65536 = 65536 ∧ ¬(nthCounter 65536 ≤ 65535) ∧ nthCounter 65536 ≠ 1 := by
  have h := nthCounter_of_le 65536 (by norm_num [MAX_ID])
  refine ⟨h, by omega, by omega⟩

/-- C6 (amended): ids are assigned monotonically starting at 1 (each new id
is the previous counter plus 1) while the counter is below MAX_ID = 65536;
the id after 65536 wraps back to 1; ids always lie in [1, 65536] and 0 is
never assigned; Entity construction stamps exactly the bumped counter. -/
theorem id_assignment_spec (n : Nat) :
    (1 ≤ bumpId n ∧ bumpId n ≤ MAX_ID) ∧ bumpId n ≠ 0 ∧
    (n < MAX_ID → bumpId n = n + 1) ∧
    (MAX_ID ≤ n → bumpId n = 1) ∧
    bumpId 0 = 1 ∧
    (∀ (size : MapSize) (coord : Int × Int) (en t : Int) (p : Entity × Nat),
      entityNew size coord en t n = .ok p → p.1.id = bumpId n ∧ p.2 = bumpId n) := by
  have hM : MAX_ID = 65536 := by norm_num [MAX_ID]
  refine ⟨?_, ?_, ?_, ?_, ?_, ?_⟩
  · rw [bumpId, hM]
    split <;> omega
  · rw [bumpId, hM]
    split <;> omega
  · intro h
    rw [bumpId, if_pos h]
  · intro h
    rw [bumpId, if_neg (by omega)]
  · rfl
  · intro size coord en t p hok
    rcases hx : setXE size coord.1 with mx | vx <;>
      rcases hy : setYE size coord.2 with my | vy <;>
      simp [entityNew, hx, hy, bind, Except.bind] at hok
    rw [← hok]
    constructor <;> rfl

/-- C6 witness: from the counter value 65535 the next id is 65536 (not a wrap
to 1), and from 65536 the next id wraps to 1. -/
theorem id_assignment_spec_witness :
    bumpId 65535 = 65535 + 1 ∧ bumpId 65536 = 1 :=
  ⟨(id_assignment_spec 65535).2.2.1 (by norm_num [MAX_ID]),
   (id_assignment_spec 65536).2.2.2.1 (by norm_num [MAX_ID])⟩

/-- C9: dispatching `spawn food x y` reaches `Food.new((x, y))`, which lacks
the required pts argument: the command raises TypeError and adds no Food. -/
theorem spawn_food_raises (st : SimState) (x y : Int) :
    processSpawn st "food" x y =
      .error "TypeError: new missing 1 required positional argument: pts" := by
  rfl

/-- C10: an out-of-range elapsed-time assignment performs the documented
reset (time -1, energy 0, age 0), and any subsequent save of a state holding
such an agent fails: -1 does not pass the entity.time range check. -/
theorem time_reset_save_fails (e0 : Entity) (v : Int) (hv : ¬(0 ≤ v ∧ v < TIME_MAX)) :
    (applyTime e0 v).time = -1 ∧ (applyTime e0 v).energy = 0 ∧ (applyTime e0 v).age = 0 ∧
    (∀ (st : SimState) (stop starting : Int), applyTime e0 v ∈ st.entities →
      (saveBytes st stop starting).2.isSome = true) := by
  have htime : (applyTime e0 v).time = -1 := by
    rw [applyTime, if_neg hv]
  refine ⟨htime, by rw [applyTime, if_neg hv], by rw [applyTime, if_neg hv], ?_⟩
  intro st stop starting hmem
  rw [Option.isSome_iff_ne_none]
  intro hnone
  have hall := (writeSeq_err_none _).1 hnone
  have hfe : (⟨2, (applyTime e0 v).time, "entity.time"⟩ : Field) ∈
      entityFields (applyTime e0 v) := by
    simp [entityFields]
  have hfmem : (⟨2, (applyTime e0 v).time, "entity.time"⟩ : Field) ∈
      saveFields st stop starting := by
    have := mem_flatAll entityFields hmem hfe
    simp only [saveFields, List.mem_append]
    tauto
  have hcontra := hall _ hfmem
  simp only [htime] at hcontra
  simp at hcontra

/-- C10 witness: a concrete agent whose time setter received 4000 holds time
-1, and saving a state that contains it fails. -/
theorem time_reset_save_fails_witness :
    (applyTime ⟨0, 0, 5, 0, 0, 1⟩ 4000).time = -1 ∧
    (saveBytes ⟨[], [applyTime ⟨0, 0, 5, 0, 0, 1⟩ 4000], 1, ⟨5, 5⟩, 0, 50⟩ 0 0).2.isSome
      = true := by
  have h := time_reset_save_fails ⟨0, 0, 5, 0, 0, 1⟩ 4000 (by decide)
  exact ⟨h.1, h.2.2.2 ⟨[], [applyTime ⟨0, 0, 5, 0, 0, 1⟩ 4000], 1, ⟨5, 5⟩, 0, 50⟩ 0 0
    (by decide)⟩

/-- C2 counterexample: saving a state holding an agent with the reset time -1
fails with a value-range error, yet the target file content has changed: it
holds the partially written prefix, not the previous content and not a whole
record. -/
theorem save_partial_write_counterexample :
    ((saveFile [7] ⟨[], [⟨0, 0, 0, -1, 0, 1⟩], 1, ⟨5, 5⟩, 0, 50⟩ 0 0).2.2
        = some "entity.time") ∧
    (saveFile [7] ⟨[], [⟨0, 0, 0, -1, 0, 1⟩], 1, ⟨5, 5⟩, 0, 50⟩ 0 0).1 ≠ [7] ∧
    (saveFile [7] ⟨[], [⟨0, 0, 0, -1, 0, 1⟩], 1, ⟨5, 5⟩, 0, 50⟩ 0 0).1 ≠ [] := by
  refine ⟨?_, ?_, ?_⟩ <;> decide

/-- C2 (amended): save fails with a value-range error exactly when some field
does not fit its byte width, but the failure is observable as a partial
write: the target (opened with mode wb) is left holding the encoded prefix of
fields before the first failing one; only the backup keeps the prior content. -/
theorem save_partial_write (prev : List Nat) (st : SimState) (stop starting : Int) :
    ((saveFile prev st stop starting).2.2 = none ↔
      ∀ f ∈ saveFields st stop starting, 0 ≤ f.val ∧ f.val < 2 ^ (8 * f.sz)) ∧
    (saveFile prev st stop starting).1 = encAll ((saveFields st stop starting).takeWhile fitsB) ∧
    (saveFile prev st stop starting).2.1 = prev :=
  ⟨writeSeq_err_none _, writeSeq_bytes _, rfl⟩

theorem flatAll_mem_exists (g : α → List β) {l : List α} {x : β}
    (hx : x ∈ flatAll g l) : ∃ a ∈ l, x ∈ g a := by
  induction l with
  | nil => cases hx
  | cons b l ih =>
      rcases List.mem_append.1 hx with h | h
      · exact ⟨b, by simp, h⟩
      · obtain ⟨a, ha, hxa⟩ := ih h
        exact ⟨a, by simp [ha], hxa⟩

theorem foodNew_ok (size : MapSize) (x y pts : Int)
    (hx : 0 ≤ x ∧ x < size.w) (hy : 0 ≤ y ∧ y < size.h) :
    foodNew size (x, y) pts = .ok ⟨x, y, setPts pts⟩ := by
  simp [foodNew, setXE, setYE, hx.1, hx.2, hy.1, hy.2, bind, Except.bind]

theorem setEnergy_of_range (v : Int) (h0 : 0 ≤ v) (h1 : v ≤ ENERGY_MAX) :
    setEnergy v = v := by
  rw [setEnergy, if_neg (by omega), if_neg (by omega)]

theorem entityNew_ok (size : MapSize) (x y energy time : Int) (n : Nat)
    (hx : 0 ≤ x ∧ x < size.w) (hy : 0 ≤ y ∧ y < size.h)
    (hen : 0 ≤ energy ∧ energy ≤ ENERGY_MAX) (ht : 0 ≤ time ∧ time < TIME_MAX) :
    entityNew size (x, y) energy time n =
      .ok (⟨x, y, energy, time, time / TIME_IN_AGE, bumpId n⟩, bumpId n) := by
  simp only [entityNew, setXE, setYE, bind, Except.bind, if_pos hx, if_pos hy]
  rw [applyTime, if_pos ht, setEnergy_of_range energy hen.1 hen.2]

theorem encField_sentinel (s : String) : encField ⟨2, 0, s⟩ = [0, 0] := by
  simp [encField, toBytesBE]

theorem readFoodsLoop_sentinel (size : MapSize) (acc : List Food) (rest : List Nat) :
    readFoodsLoop size acc (toBytesBE 2 0 ++ rest) = (acc, .ok rest) := by
  have h0 : fromBytesBE (toBytesBE 2 0) = 0 := by decide
  rw [readFoodsLoop]
  simp [take_append_len _ _ 2 (length_toBytesBE 2 0),
    drop_append_len _ _ 2 (length_toBytesBE 2 0), length_toBytesBE, h0]

theorem readFoodsLoop_record (size : MapSize) (f : Food) (hf : FoodSaveable size f)
    (hw : size.w ≤ 65536) (hh : size.h ≤ 65536) (acc : List Food) (rest : List Nat) :
    readFoodsLoop size acc (encAll (foodFields f) ++ rest) =
      readFoodsLoop size (acc ++ [f]) rest := by
  obtain ⟨⟨hx0, hxw, hy0, hyh⟩, hp1, hpm⟩ := hf
  have e2 : (256 : Nat) ^ 2 = 65536 := by norm_num
  have hPM : PTS_MAX = 65536 := by norm_num [PTS_MAX]
  have hp2 : f.pts.toNat < 256 ^ 2 := by omega
  have hbytes : encAll (foodFields f) ++ rest =
      toBytesBE 2 f.pts.toNat ++ (toBytesBE 2 f.x.toNat ++ (toBytesBE 2 f.y.toNat ++ rest)) := by
    simp [encAll, flatAll, encField, foodFields, List.append_assoc]
  rw [hbytes, readFoodsLoop]
  rw [take_append_len _ _ 2 (length_toBytesBE 2 _), drop_append_len _ _ 2 (length_toBytesBE 2 _)]
  rw [if_neg (by simp [length_toBytesBE]), fromBytes_toBytes 2 _ hp2,
    if_neg (by omega), if_neg (by simp [length_toBytesBE])]
  rw [take_append_len _ _ 2 (length_toBytesBE 2 _), drop_append_len _ _ 2 (length_toBytesBE 2 _)]
  rw [fromBytes_toBytes 2 _ (by omega), if_neg (by simp [length_toBytesBE])]
  rw [take_append_len _ _ 2 (length_toBytesBE 2 _), drop_append_len _ _ 2 (length_toBytesBE 2 _)]
  rw [fromBytes_toBytes 2 _ (by omega)]
  have hsp : setPts f.pts = f.pts := by rw [setPts, if_pos ⟨by omega, by omega⟩]
  simp only [Int.toNat_of_nonneg hx0, Int.toNat_of_nonneg hy0,
    Int.toNat_of_nonneg (show (0 : Int) ≤ f.pts by omega),
    foodNew_ok size f.x f.y f.pts ⟨hx0, hxw⟩ ⟨hy0, hyh⟩, hsp]

theorem readFoodsLoop_foods (size : MapSize) (fs : List Food)
    (hfs : ∀ f ∈ fs, FoodSaveable size f)
    (hw : size.w ≤ 65536) (hh : size.h ≤ 65536) (acc : List Food) (rest : List Nat) :
    readFoodsLoop size acc (encAll (flatAll foodFields fs) ++ (toBytesBE 2 0 ++ rest)) =
      (acc ++ fs, .ok rest) := by
  induction fs generalizing acc with
  | nil => simpa [flatAll, encAll] using readFoodsLoop_sentinel size acc rest
  | cons f fs ih =>
      have hdist : encAll (flatAll foodFields (f :: fs)) =
          encAll (foodFields f) ++ encAll (flatAll foodFields fs) := by
        simp [encAll, flatAll, flatAll_append]
      rw [hdist, List.append_assoc,
        readFoodsLoop_record size f (hfs f (by simp)) hw hh acc _,
        ih (fun g hg => hfs g (by simp [hg])) (acc ++ [f])]
      simp

theorem readEntitiesLoop_sentinel (size : MapSize) (acc : List Entity) (n : Nat)
    (rest : List Nat) :
    readEntitiesLoop size acc n (toBytesBE 2 0 ++ rest) = (acc, n, .ok rest) := by
  have h0 : fromBytesBE (toBytesBE 2 0) = 0 := by decide
  rw [readEntitiesLoop]
  simp [take_append_len _ _ 2 (length_toBytesBE 2 0),
    drop_append_len _ _ 2 (length_toBytesBE 2 0), length_toBytesBE, h0]

theorem readEntitiesLoop_record (size : MapSize) (e : Entity) (hf : EntitySaveable size e)
    (hw : size.w ≤ 65536) (hh : size.h ≤ 65536)
    (acc : List Entity) (n : Nat) (rest : List Nat) :
    readEntitiesLoop size acc n (encAll (entityFields e) ++ rest) =
      readEntitiesLoop size
        (acc ++ [⟨e.x, e.y, e.energy, e.time, e.time / TIME_IN_AGE, bumpId n⟩])
        (bumpId n) rest := by
  obtain ⟨⟨hx0, hxw, hy0, hyh⟩, hen0, hen1, ht0, ht1, hid1, hidm⟩ := hf
  have e2 : (256 : Nat) ^ 2 = 65536 := by norm_num
  have hEM : ENERGY_MAX = 9999 := by norm_num [ENERGY_MAX]
  have hTM : TIME_MAX = 4000 := by norm_num [TIME_MAX]
  have hMI : MAX_ID = 65536 := by norm_num [MAX_ID]
  have hbytes : encAll (entityFields e) ++ rest =
      toBytesBE 2 ((e.id : Int)).toNat ++ (toBytesBE 2 e.x.toNat ++ (toBytesBE 2 e.y.toNat ++
        (toBytesBE 2 e.energy.toNat ++ (toBytesBE 2 e.time.toNat ++ rest)))) := by
    simp [encAll, flatAll, encField, entityFields, List.append_assoc]
  have hidn : ((e.id : Int)).toNat = e.id := by omega
  rw [hbytes, readEntitiesLoop]
  rw [take_append_len _ _ 2 (length_toBytesBE 2 _), drop_append_len _ _ 2 (length_toBytesBE 2 _)]
  rw [if_neg (by simp [length_toBytesBE]), fromBytes_toBytes 2 _ (by omega),
    if_neg (by omega), if_neg (by simp [length_toBytesBE])]
  rw [take_append_len _ _ 2 (length_toBytesBE 2 _), drop_append_len _ _ 2 (length_toBytesBE 2 _)]
  rw [fromBytes_toBytes 2 _ (by omega), if_neg (by simp [length_toBytesBE])]
  rw [take_append_len _ _ 2 (length_toBytesBE 2 _), drop_append_len _ _ 2 (length_toBytesBE 2 _)]
  rw [fromBytes_toBytes 2 _ (by omega), if_neg (by simp [length_toBytesBE])]
  rw [take_append_len _ _ 2 (length_toBytesBE 2 _), drop_append_len _ _ 2 (length_toBytesBE 2 _)]
  rw [fromBytes_toBytes 2 _ (by omega), if_neg (by simp [length_toBytesBE])]
  rw [take_append_len _ _ 2 (length_toBytesBE 2 _), drop_append_len _ _ 2 (length_toBytesBE 2 _)]
  rw [fromBytes_toBytes 2 _ (by omega)]
  simp only [Int.toNat_of_nonneg hx0, Int.toNat_of_nonneg hy0, Int.toNat_of_nonneg hen0,
    Int.toNat_of_nonneg ht0,
    entityNew_ok size e.x e.y e.energy e.time n ⟨hx0, hxw⟩ ⟨hy0, hyh⟩ ⟨hen0, hen1⟩ ⟨ht0, ht1⟩]

theorem readEntitiesLoop_entities (size : MapSize) (es : List Entity)
    (hes : ∀ e ∈ es, EntitySaveable size e)
    (hw : size.w ≤ 65536) (hh : size.h ≤ 65536)
    (acc : List Entity) (n : Nat) (rest : List Nat) :
    ∃ es' n',
      readEntitiesLoop size acc n (encAll (flatAll entityFields es) ++ (toBytesBE 2 0 ++ rest)) =
        (acc ++ es', n', .ok rest) ∧ es'.map entProj = es.map entProj := by
  induction es generalizing acc n with
  | nil =>
      refine ⟨[], n, ?_, rfl⟩
      simpa [flatAll, encAll] using readEntitiesLoop_sentinel size acc n rest
  | cons e es ih =>
      have hdist : encAll (flatAll entityFields (e :: es)) =
          encAll (entityFields e) ++ encAll (flatAll entityFields es) := by
        simp [encAll, flatAll, flatAll_append]
      obtain ⟨es', n', heq, hproj⟩ :=
        ih (fun g hg => hes g (by simp [hg]))
          (acc ++ [⟨e.x, e.y, e.energy, e.time, e.time / TIME_IN_AGE, bumpId n⟩]) (bumpId n)
      refine ⟨⟨e.x, e.y, e.energy, e.time, e.time / TIME_IN_AGE, bumpId n⟩ :: es', n', ?_, ?_⟩
      · rw [hdist, List.append_assoc,
          readEntitiesLoop_record size e (hes e (by simp)) hw hh acc n _, heq]
        simp
      · simp [hproj, entProj]

theorem readIntB_enc (sz v : Nat) (r : List Nat) (name : String) (hv : v < 256 ^ sz) :
    readIntB sz (toBytesBE sz v ++ r) name = .ok (v, r) := by
  rw [readIntB_append sz _ _ _ (length_toBytesBE sz v), fromBytes_toBytes sz v hv]

theorem saveFields_fit (st : SimState) (stop starting : Int)
    (h : SaveableState st stop starting) :
    ∀ f ∈ saveFields st stop starting, 0 ≤ f.val ∧ f.val < 2 ^ (8 * f.sz) := by
  obtain ⟨hfd, hed, hw0, hw1, hh0, hh1, hs0, hs1, hm0, hm1⟩ := h
  have hPM : PTS_MAX = 65536 := by norm_num [PTS_MAX]
  have hSM : SAVE_TIME_MAX = 18446744073709551616 := by norm_num [SAVE_TIME_MAX]
  have hEM : ENERGY_MAX = 9999 := by norm_num [ENERGY_MAX]
  have hTM : TIME_MAX = 4000 := by norm_num [TIME_MAX]
  have hMI : MAX_ID = 65536 := by norm_num [MAX_ID]
  intro f hfm
  simp only [saveFields, List.append_assoc, List.mem_append, List.mem_cons,
    List.not_mem_nil, or_false] at hfm
  rcases hfm with (h1 | h1 | h1 | h1) | h1 | h1 | h1 | h1
  · subst h1
    constructor
    · exact hs0
    · norm_num
      omega
  · subst h1
    constructor
    · exact hm0
    · norm_num
      omega
  · subst h1
    constructor
    · exact hw0
    · norm_num
      omega
  · subst h1
    constructor
    · exact hh0
    · norm_num
      omega
  · obtain ⟨g, hg, hfg⟩ := flatAll_mem_exists foodFields h1
    obtain ⟨⟨hgx0, hgxw, hgy0, hgyh⟩, hg1, hg2⟩ := hfd g hg
    simp only [foodFields, List.mem_cons, List.not_mem_nil, or_false] at hfg
    rcases hfg with h2 | h2 | h2 <;> subst h2 <;> constructor <;> norm_num <;> omega
  · subst h1
    norm_num
  · obtain ⟨g, hg, hfg⟩ := flatAll_mem_exists entityFields h1
    obtain ⟨⟨hgx0, hgxw, hgy0, hgyh⟩, he0, he1, ht0, ht1, hi0, hi1⟩ := hed g hg
    simp only [entityFields, List.mem_cons, List.not_mem_nil, or_false] at hfg
    rcases hfg with h2 | h2 | h2 | h2 | h2 <;> subst h2 <;> constructor <;> norm_num <;> omega
  · subst h1
    norm_num

theorem saveFields_decomp (st : SimState) (stop starting : Int) :
    encAll (saveFields st stop starting) =
      toBytesBE 8 stop.toNat ++ (toBytesBE 8 (st.saveTime + (stop - starting)).toNat ++
      (toBytesBE 2 st.mapSize.w.toNat ++ (toBytesBE 2 st.mapSize.h.toNat ++
      (encAll (flatAll foodFields st.foods) ++ (toBytesBE 2 0 ++
      (encAll (flatAll entityFields st.entities) ++ (toBytesBE 2 0 ++ []))))))) := by
  simp [saveFields, encAll, flatAll_append, flatAll, encField, List.append_assoc]

/-- C1 (amended): for a well-formed saveable state, save succeeds and a
subsequent load from any prior state reproduces the food list exactly and
the agent (x, y, energy, elapsed-time) tuples exactly; agent ids are not
preserved (load reads the id field only as a sentinel and `Entity.new`
assigns fresh ids from the counter); the map size round-trips too. -/
theorem save_load_roundtrip (st : SimState) (stop starting : Int) (st0 : SimState)
    (last0 : Int) (h : SaveableState st stop starting) :
    (saveBytes st stop starting).2 = none ∧
    (load st0 last0 (saveBytes st stop starting).1).2.2 = none ∧
    (load st0 last0 (saveBytes st stop starting).1).1.foods = st.foods ∧
    (load st0 last0 (saveBytes st stop starting).1).1.entities.map entProj
      = st.entities.map entProj ∧
    (load st0 last0 (saveBytes st stop starting).1).1.mapSize = st.mapSize := by
  have hfit := saveFields_fit st stop starting h
  obtain ⟨hfd, hed, hw0, hw1, hh0, hh1, hs0, hs1, hm0, hm1⟩ := h
  have hPM : PTS_MAX = 65536 := by norm_num [PTS_MAX]
  have hSM : SAVE_TIME_MAX = 18446744073709551616 := by norm_num [SAVE_TIME_MAX]
  have e8 : (256 : Nat) ^ 8 = 18446744073709551616 := by norm_num
  have e2 : (256 : Nat) ^ 2 = 65536 := by norm_num
  have hsb : saveBytes st stop starting = (encAll (saveFields st stop starting), none) :=
    writeSeq_all_ok hfit
  have hms : (⟨st.mapSize.w, st.mapSize.h⟩ : MapSize) = st.mapSize := rfl
  have hfoods := readFoodsLoop_foods st.mapSize st.foods hfd (by omega) (by omega) []
    (encAll (flatAll entityFields st.entities) ++ (toBytesBE 2 0 ++ []))
  obtain ⟨es', n', heq, hproj⟩ := readEntitiesLoop_entities st.mapSize st.entities hed
    (by omega) (by omega) [] st0.nEntities []
  rw [hsb]
  refine ⟨rfl, ?_⟩
  simp only [saveFields_decomp, load,
    readIntB_enc 8 stop.toNat _ "file.last_loading" (by omega),
    readIntB_enc 8 (st.saveTime + (stop - starting)).toNat _ "file.sim_time" (by omega),
    readIntB_enc 2 st.mapSize.w.toNat _ "map.size_x" (by omega),
    readIntB_enc 2 st.mapSize.h.toNat _ "map.size_y" (by omega),
    Int.toNat_of_nonneg hw0, Int.toNat_of_nonneg hh0, hms, hfoods, List.nil_append, heq]
  exact ⟨trivial, trivial, hproj, trivial⟩

/-- C1 witness: a concrete saveable world (one food, one agent) satisfies the
round-trip: food list and agent projections are reproduced. -/
theorem save_load_roundtrip_witness :
    (saveBytes ⟨[⟨1, 2, 70⟩], [⟨2, 3, 50, 7, 0, 1⟩], 1, ⟨5, 5⟩, 0, 50⟩ 0 0).2 = none ∧
    (load ⟨[], [], 0, ⟨5, 5⟩, 0, 50⟩ 0
        (saveBytes ⟨[⟨1, 2, 70⟩], [⟨2, 3, 50, 7, 0, 1⟩], 1, ⟨5, 5⟩, 0, 50⟩ 0 0).1).1.foods
      = [⟨1, 2, 70⟩] ∧
    (load ⟨[], [], 0, ⟨5, 5⟩, 0, 50⟩ 0
        (saveBytes ⟨[⟨1, 2, 70⟩], [⟨2, 3, 50, 7, 0, 1⟩], 1, ⟨5, 5⟩, 0, 50⟩ 0 0).1).1.entities.map
        entProj
      = ([⟨2, 3, 50, 7, 0, 1⟩] : List Entity).map entProj := by
  have h := save_load_roundtrip ⟨[⟨1, 2, 70⟩], [⟨2, 3, 50, 7, 0, 1⟩], 1, ⟨5, 5⟩, 0, 50⟩ 0 0
    ⟨[], [], 0, ⟨5, 5⟩, 0, 50⟩ 0
    (by
      simp only [SaveableState, FoodSaveable, EntitySaveable, InBoundsF, InBoundsE,
        List.forall_mem_cons, List.forall_mem_nil]
      norm_num [PTS_MAX, SAVE_TIME_MAX, ENERGY_MAX, TIME_MAX, MAX_ID])
  exact ⟨h.1, h.2.2.1, h.2.2.2.1⟩

/-- C1 counterexample: the agent id is not reproduced by the round trip: a
world holding the single agent id 1 reloads as a world holding the same
(x, y, energy, time) data under the fresh id 2, so the claimed set of
(id, x, y, energy, elapsed_time) tuples differs. -/
theorem roundtrip_id_counterexample :
    ((load ⟨[], [⟨2, 3, 50, 7, 0, 1⟩], 1, ⟨5, 5⟩, 0, 50⟩ 0
        (saveBytes ⟨[], [⟨2, 3, 50, 7, 0, 1⟩], 1, ⟨5, 5⟩, 0, 50⟩ 0 0).1).1.entities.map
        entIdProj = [(2, 2, 3, 50, 7)]) ∧
    ([(⟨2, 3, 50, 7, 0, 1⟩ : Entity)].map entIdProj = [(1, 2, 3, 50, 7)]) ∧
    (1, (2 : Int), (3 : Int), (50 : Int), (7 : Int)) ∉
      ((load ⟨[], [⟨2, 3, 50, 7, 0, 1⟩], 1, ⟨5, 5⟩, 0, 50⟩ 0
        (saveBytes ⟨[], [⟨2, 3, 50, 7, 0, 1⟩], 1, ⟨5, 5⟩, 0, 50⟩ 0 0).1).1.entities.map
        entIdProj) := by
  have hbytes : (saveBytes ⟨[], [⟨2, 3, 50, 7, 0, 1⟩], 1, ⟨5, 5⟩, 0, 50⟩ 0 0).1 =
      [0, 0, 0, 0, 0, 0, 0, 0, 0, 0, 0, 0, 0, 0, 0, 0, 0, 5, 0, 5, 0, 0,
       0, 1, 0, 2, 0, 3, 0, 50, 0, 7, 0, 0] := by decide
  rw [hbytes]
  refine ⟨?_, by decide, ?_⟩ <;>
    simp [load, readIntB, fromBytesBE, readFoodsLoop, readEntitiesLoop, entityNew, foodNew,
      setXE, setYE, applyTime, setEnergy, setPts, bumpId, saveSetTime, entIdProj,
      MAX_ID, TIME_MAX, TIME_IN_AGE, ENERGY_MAX, SAVE_TIME_MAX, bind, Except.bind]

theorem readFoodsLoop_passthrough (size : MapSize) (fs : List Food)
    (hfs : ∀ f ∈ fs, FoodSaveable size f)
    (hw : size.w ≤ 65536) (hh : size.h ≤ 65536) (acc : List Food) (rest : List Nat) :
    readFoodsLoop size acc (encAll (flatAll foodFields fs) ++ rest) =
      readFoodsLoop size (acc ++ fs) rest := by
  induction fs generalizing acc with
  | nil => simp [flatAll, encAll]
  | cons f fs ih =>
      have hdist : encAll (flatAll foodFields (f :: fs)) =
          encAll (foodFields f) ++ encAll (flatAll foodFields fs) := by
        simp [encAll, flatAll, flatAll_append]
      rw [hdist, List.append_assoc,
        readFoodsLoop_record size f (hfs f (by simp)) hw hh acc _,
        ih (fun g hg => hfs g (by simp [hg])) (acc ++ [f])]
      simp

theorem readFoodsLoop_short (size : MapSize) (acc : List Food) (tail : List Nat)
    (htail : tail.length < 2) :
    readFoodsLoop size acc tail = (acc, .error "food.pts") := by
  rw [readFoodsLoop, if_pos htail]

/-- C7 (amended): load reads the header first (no clearing yet), then clears
the Food collection and reads food records, then — only if the food section
completed — clears the Agent collection and reads agent records.  A file
truncated inside a food field fails with a read error; the Food collection
holds exactly the complete records read before the truncation, and the Agent
collection keeps its pre-load contents. -/
theorem load_truncation (st : SimState) (lastPrev : Int) (l t w h : Nat)
    (fs : List Food) (tail : List Nat)
    (hl : l < 256 ^ 8) (ht : t < 256 ^ 8) (hw : w < 256 ^ 2) (hh : h < 256 ^ 2)
    (hfs : ∀ f ∈ fs, FoodSaveable ⟨(w : Int), (h : Int)⟩ f)
    (htail : tail.length < 2) :
    load st lastPrev
        (toBytesBE 8 l ++ (toBytesBE 8 t ++ (toBytesBE 2 w ++ (toBytesBE 2 h ++
          (encAll (flatAll foodFields fs) ++ tail))))) =
      (SimState.mk fs st.entities st.nEntities ⟨(w : Int), (h : Int)⟩
        (saveSetTime (t : Int)) st.maxFoods, (l : Int), some "food.pts") := by
  have e2 : (256 : Nat) ^ 2 = 65536 := by norm_num
  have hpass := readFoodsLoop_passthrough ⟨(w : Int), (h : Int)⟩ fs hfs
    (show (w : Int) ≤ 65536 by omega) (show (h : Int) ≤ 65536 by omega) [] tail
  have hshort := readFoodsLoop_short ⟨(w : Int), (h : Int)⟩ fs tail htail
  simp only [load,
    readIntB_enc 8 l _ "file.last_loading" hl,
    readIntB_enc 8 t _ "file.sim_time" ht,
    readIntB_enc 2 w _ "map.size_x" hw,
    readIntB_enc 2 h _ "map.size_y" hh,
    hpass, List.nil_append, hshort]

/-- C7 witness: a concrete header plus one complete food record, truncated in
the next record before its x field, loads the single complete food, leaves
the pre-load agents untouched, and fails with a read error. -/
theorem load_truncation_witness :
    load ⟨[], [⟨2, 2, 50, 0, 0, 1⟩], 1, ⟨9, 9⟩, 0, 50⟩ 0
        (toBytesBE 8 11 ++ (toBytesBE 8 22 ++ (toBytesBE 2 5 ++ (toBytesBE 2 5 ++
          (encAll (flatAll foodFields [⟨1, 2, 70⟩]) ++ [0]))))) =
      ({ foods := [⟨1, 2, 70⟩], entities := [⟨2, 2, 50, 0, 0, 1⟩], nEntities := 1,
          mapSize := ⟨5, 5⟩, saveTime := 22, maxFoods := 50 }, 11, some "food.pts") := by
  have h := load_truncation ⟨[], [⟨2, 2, 50, 0, 0, 1⟩], 1, ⟨9, 9⟩, 0, 50⟩ 0 11 22 5 5
    [⟨1, 2, 70⟩] [0] (by norm_num) (by norm_num) (by norm_num) (by norm_num)
    (by
      simp only [FoodSaveable, InBoundsF, List.forall_mem_cons, List.forall_mem_nil]
      norm_num [PTS_MAX])
    (by norm_num)
  rw [h]
  simp [saveSetTime, SAVE_TIME_MAX]

theorem findFoodAt_mem {x y : Int} {fs : List Food} {f : Food}
    (h : findFoodAt x y fs = some f) : f ∈ fs := by
  induction fs with
  | nil => cases h
  | cons g gs ih =>
      rw [findFoodAt] at h
      split at h
      · cases h
        simp
      · simp [ih h]

/-- C3: one per-agent tick performs exactly, in order, (1) energy - 1 floored
at 0, (2) time + 1 recomputing age, (3) eat the first co-located food when
energy < 9999 (pts added, capped at 9999, food removed), (4) reproduction,
(5) movement; and in the concrete 5x5 scenario with one pts-100 food under
the agent at (2,2) with energy 50, one tick leaves energy 149 and no food,
whatever the random-move draw and counter. -/
theorem tick_phases (size : MapSize) (foods : List Food) (n : Nat) (c : Nat) (e : Entity)
    (hen : e.energy ≤ ENERGY_MAX) (hfp : ∀ f ∈ foods, 0 ≤ f.pts) :
    tick size foods n c e = specTick size foods n c e ∧
    (∀ (c2 n2 : Nat),
      (tick ⟨5, 5⟩ [⟨2, 2, 100⟩] n2 c2 ⟨2, 2, 50, 0, 0, 1⟩).ent.energy = 149 ∧
      (tick ⟨5, 5⟩ [⟨2, 2, 100⟩] n2 c2 ⟨2, 2, 50, 0, 0, 1⟩).foods = []) := by
  have hEM : ENERGY_MAX = 9999 := by norm_num [ENERGY_MAX]
  constructor
  · have h1 : ({ e with energy := setEnergy (max 0 (e.energy - 1)) } : Entity)
        = specEnergyPhase e := by
      rw [specEnergyPhase, setEnergy_of_range _ (by omega) (by omega)]
    have htproj : (specEnergyPhase e).time = e.time := rfl
    have he2 : 0 ≤ (applyTime (specEnergyPhase e) (e.time + 1)).energy := by
      rw [applyTime]
      split
      · simp [specEnergyPhase, le_max_left]
      · simp
    have heat : eat foods (applyTime (specEnergyPhase e) (e.time + 1))
        = specEatPhase foods (applyTime (specEnergyPhase e) (e.time + 1)) := by
      generalize applyTime (specEnergyPhase e) (e.time + 1) = x at he2
      rw [eat, specEatPhase, hEM]
      by_cases hg : x.energy < 9999
      · rw [if_pos hg, if_pos hg]
        cases hfind : findFoodAt x.x x.y foods with
        | none => rfl
        | some f =>
            have hpf := hfp f (findFoodAt_mem hfind)
            simp only []
            rw [setEnergy_of_range _ (by omega) (by rw [hEM]; omega)]
      · rw [if_neg hg, if_neg hg]
    simp only [tick, specTick, h1, specTimePhase, htproj, heat, specMovePhase]
  · intro c2 n2
    constructor <;>
      simp [tick, applyTime, eat, findFoodAt, eatRemove, setEnergy, reproduction,
        moveTowardsFood, closestFood, rdmMove, ENERGY_MAX, TIME_MAX, TIME_IN_AGE,
        AGE_REPROD_LO, AGE_REPROD_HI, MIN_REPROD, sqDist, RANGE_DEF]

/-- C3 witness: the concrete scenario instantiated (counter 1, draw 0). -/
theorem tick_phases_witness :
    (tick ⟨5, 5⟩ [⟨2, 2, 100⟩] 1 0 ⟨2, 2, 50, 0, 0, 1⟩).ent.energy = 149 ∧
    (tick ⟨5, 5⟩ [⟨2, 2, 100⟩] 1 0 ⟨2, 2, 50, 0, 0, 1⟩).foods = [] := by
  have h := tick_phases ⟨5, 5⟩ [⟨2, 2, 100⟩] 1 0 ⟨2, 2, 50, 0, 0, 1⟩
    (by norm_num [ENERGY_MAX]) (by decide)
  exact ⟨(h.2 0 1).1, (h.2 0 1).2⟩

theorem setXE_ok {size : MapSize} {v w' : Int} (h : setXE size v = .ok w') :
    w' = v ∧ 0 ≤ v ∧ v < size.w := by
  rw [setXE] at h
  split at h
  · next hc =>
      cases h
      exact ⟨rfl, hc⟩
  · cases h

theorem setYE_ok {size : MapSize} {v w' : Int} (h : setYE size v = .ok w') :
    w' = v ∧ 0 ≤ v ∧ v < size.h := by
  rw [setYE] at h
  split at h
  · next hc =>
      cases h
      exact ⟨rfl, hc⟩
  · cases h

theorem closestFood_aux (e : Entity) (foods : List Food) :
    ∀ (acc : Option (Food × Int)) (p : Food × Int),
      List.foldl (fun acc f =>
        let d := sqDist e.x e.y f.x f.y
        match acc with
        | none => if d ≤ RANGE_DEF ^ 2 then some (f, d) else none
        | some (g, dmin) =>
            if d ≤ RANGE_DEF ^ 2 ∧ d < dmin then some (f, d) else some (g, dmin))
        acc foods = some p →
      acc = some p ∨ p.1 ∈ foods := by
  induction foods with
  | nil => exact fun acc p h => Or.inl h
  | cons f fs ih =>
      intro acc p h
      rw [List.foldl_cons] at h
      rcases ih _ p h with hc | hc
      · rcases acc with _ | ⟨g, dmin⟩
        · simp only [] at hc
          split at hc
          · cases hc
            right
            simp
          · cases hc
        · simp only [] at hc
          split at hc
          · cases hc
            right
            simp
          · cases hc
            left
            rfl
      · right
        simp [hc]

theorem closestFood_mem {e : Entity} {foods : List Food} {f : Food}
    (h : closestFood e foods = some f) : f ∈ foods := by
  unfold closestFood at h
  rw [Option.map_eq_some'] at h
  obtain ⟨p, hp, hpf⟩ := h
  rcases closestFood_aux e foods none p hp with hc | hc
  · cases hc
  · rw [← hpf]
    exact hc

theorem signStep_bounds (a b hi : Int) (ha : 0 ≤ a ∧ a < hi) (hb2 : 0 ≤ b ∧ b < hi) :
    0 ≤ a + signStep (b - a) ∧ a + signStep (b - a) < hi := by
  rw [signStep]
  split
  · omega
  · split <;> omega

/-- C8: coordinates are validated, never clamped: the x and y setters accept
exactly the values in [0, width) resp. [0, height) and raise otherwise, so
every constructed Food or Agent is in bounds; moving one step toward an
in-range Food keeps the agent in bounds; and a random move chooses only among
the Moore offsets (including (0,0)) that keep the agent on the map. -/
theorem coordinate_bounds (size : MapSize) (e : Entity) (foods : List Food) (c : Nat)
    (hb : InBoundsE size e) (hfb : ∀ f ∈ foods, InBoundsF size f) :
    (∀ v : Int,
      (setXE size v = .ok v ↔ 0 ≤ v ∧ v < size.w) ∧
      (¬(0 ≤ v ∧ v < size.w) → setXE size v = .error "x out of range") ∧
      (setYE size v = .ok v ↔ 0 ≤ v ∧ v < size.h) ∧
      (¬(0 ≤ v ∧ v < size.h) → setYE size v = .error "y out of range")) ∧
    (∀ (coord : Int × Int) (pts : Int) (f : Food),
      foodNew size coord pts = .ok f → InBoundsF size f) ∧
    (∀ (coord : Int × Int) (en t : Int) (n : Nat) (p : Entity × Nat),
      entityNew size coord en t n = .ok p → InBoundsE size p.1) ∧
    (∀ e' : Entity, moveTowardsFood foods e = some e' → InBoundsE size e') ∧
    (∀ d : Int × Int, d ∈ possibleMoves size e ↔ d ∈ MOORE ∧
      0 ≤ e.x + d.1 ∧ e.x + d.1 < size.w ∧ 0 ≤ e.y + d.2 ∧ e.y + d.2 < size.h) ∧
    ((0, 0) ∈ possibleMoves size e) ∧
    InBoundsE size (rdmMove size c e) := by
  have hmoor : ∀ d : Int × Int, d ∈ possibleMoves size e ↔ d ∈ MOORE ∧
      0 ≤ e.x + d.1 ∧ e.x + d.1 < size.w ∧ 0 ≤ e.y + d.2 ∧ e.y + d.2 < size.h := by
    intro d
    simp [possibleMoves, List.mem_filter]
  have h00 : (0, 0) ∈ possibleMoves size e := by
    rw [hmoor]
    obtain ⟨h1, h2, h3, h4⟩ := hb
    refine ⟨by decide, by simpa using ⟨h1, h2, h3, h4⟩⟩
  refine ⟨?_, ?_, ?_, ?_, hmoor, h00, ?_⟩
  · intro v
    by_cases hv : 0 ≤ v ∧ v < size.w <;> by_cases hw : 0 ≤ v ∧ v < size.h <;>
      simp [setXE, setYE, hv, hw]
  · intro coord pts f hok
    rcases hx : setXE size coord.1 with mx | vx <;>
      rcases hy : setYE size coord.2 with my | vy <;>
      simp [foodNew, hx, hy, bind, Except.bind] at hok
    obtain ⟨hvx, hx0, hx1⟩ := setXE_ok hx
    obtain ⟨hvy, hy0, hy1⟩ := setYE_ok hy
    subst hvx hvy
    rw [← hok]
    exact ⟨hx0, hx1, hy0, hy1⟩
  · intro coord en t n p hok
    rcases hx : setXE size coord.1 with mx | vx <;>
      rcases hy : setYE size coord.2 with my | vy <;>
      simp [entityNew, hx, hy, bind, Except.bind] at hok
    obtain ⟨hvx, hx0, hx1⟩ := setXE_ok hx
    obtain ⟨hvy, hy0, hy1⟩ := setYE_ok hy
    subst hvx hvy
    rw [← hok]
    rw [applyTime]
    split <;> exact ⟨hx0, hx1, hy0, hy1⟩
  · intro e' hmv
    rw [moveTowardsFood] at hmv
    cases hcf : closestFood e foods with
    | none => rw [hcf] at hmv; cases hmv
    | some f =>
        rw [hcf] at hmv
        cases hmv
        obtain ⟨hfx0, hfxw, hfy0, hfyh⟩ := hfb f (closestFood_mem hcf)
        obtain ⟨hex0, hexw, hey0, heyh⟩ := hb
        obtain ⟨hsx0, hsx1⟩ := signStep_bounds e.x f.x size.w ⟨hex0, hexw⟩ ⟨hfx0, hfxw⟩
        obtain ⟨hsy0, hsy1⟩ := signStep_bounds e.y f.y size.h ⟨hey0, heyh⟩ ⟨hfy0, hfyh⟩
        exact ⟨hsx0, hsx1, hsy0, hsy1⟩
  · rw [rdmMove]
    have hne : possibleMoves size e ≠ [] := List.ne_nil_of_mem h00
    have hlen : 0 < (possibleMoves size e).length := List.length_pos.2 hne
    have hidx : c % (possibleMoves size e).length < (possibleMoves size e).length :=
      Nat.mod_lt _ hlen
    have hmem : (possibleMoves size e).getD (c % (possibleMoves size e).length) (0, 0)
        ∈ possibleMoves size e := by
      rw [List.getD_eq_getElem _ _ hidx]
      exact List.getElem_mem _
    rw [hmoor] at hmem
    obtain ⟨-, h1, h2, h3, h4⟩ := hmem
    exact ⟨h1, h2, h3, h4⟩

/-- C8 witness: a concrete in-bounds agent on a 5x5 map with one in-bounds
food: (0,0) is a possible move and a random move stays on the map. -/
theorem coordinate_bounds_witness :
    ((0, 0) ∈ possibleMoves ⟨5, 5⟩ ⟨2, 2, 50, 0, 0, 1⟩) ∧
    InBoundsE ⟨5, 5⟩ (rdmMove ⟨5, 5⟩ 7 ⟨2, 2, 50, 0, 0, 1⟩) := by
  have h := coordinate_bounds ⟨5, 5⟩ ⟨2, 2, 50, 0, 0, 1⟩ [⟨1, 1, 70⟩] 7
    ⟨by norm_num, by norm_num, by norm_num, by norm_num⟩
    (by
      intro f hf
      simp only [List.mem_cons, List.not_mem_nil, or_false] at hf
      subst hf
      exact ⟨by norm_num, by norm_num, by norm_num, by norm_num⟩)
  exact ⟨h.2.2.2.2.2.1, h.2.2.2.2.2.2⟩

set_option maxHeartbeats 1000000 in
theorem stepLoop_done_prefix (size : MapSize) (sigma : Nat → Nat) (k : Nat)
    (foods : List Food) (n : Nat) (done todo : List Entity) :
    (stepLoop size sigma k foods n done todo).1 =
      done ++ (stepLoop size sigma k foods n [] todo).1 := by
  suffices h : ∀ (k2 : Nat) (f2 : List Food) (n2 : Nat) (d0 todo2 : List Entity),
      ∀ d2 : List Entity, (stepLoop size sigma k2 f2 n2 d2 todo2).1 =
        d2 ++ (stepLoop size sigma k2 f2 n2 [] todo2).1 by
    exact h k foods n [] todo done
  intro k2 f2 n2 d0 todo2
  induction k2, f2, n2, d0, todo2 using stepLoop.induct size sigma with
  | case1 k3 f3 n3 d3 =>
      intro d2
      rw [stepLoop, stepLoop]
      simp
  | case2 k3 f3 n3 d3 e rest r queue hs ih =>
      intro d2
      conv_lhs => rw [stepLoop]
      conv_rhs => rw [stepLoop]
      rw [show tick size f3 n3 (sigma k3) e = r from rfl,
        show rest ++ r.baby.toList = queue from rfl]
      rw [if_pos hs, if_pos hs]
      rw [ih (d2 ++ [r.ent]), ih ([] ++ [r.ent])]
      simp
  | case3 k3 f3 n3 d3 e rest r queue hs ih =>
      intro d2
      conv_lhs => rw [stepLoop]
      conv_rhs => rw [stepLoop]
      rw [show tick size f3 n3 (sigma k3) e = r from rfl,
        show rest ++ r.baby.toList = queue from rfl]
      rw [if_neg hs, if_neg hs]
      rw [ih (d2 ++ List.take 1 queue), ih ([] ++ List.take 1 queue)]
      simp

theorem foodGenerate_saveTime (st : SimState) (rho : Option (Int × Int)) :
    (foodGenerate st rho).saveTime = st.saveTime := by
  rw [foodGenerate.eq_def]
  split
  · split
    · split <;> rfl
    · rfl
  · rfl

/-- C4: in one Engine tick every fetched agent is ticked and removed if it
then fails survive(); removal shifts the list under the live iterator, so the
agent that sat immediately after the removed one moves to the finished side
untouched — it is not ticked that cycle; afterwards the simulation time
advances by one through the Save time setter and exactly one Food generation
attempt is made. -/
theorem step_removal_skip (size : MapSize) (sigma : Nat → Nat) (k : Nat)
    (foods : List Food) (n : Nat) (done : List Entity) (e h2 : Entity)
    (rest : List Entity)
    (hdeath : survive (tick size foods n (sigma k) e).ent = false) :
    (stepLoop size sigma k foods n done (e :: h2 :: rest) =
      stepLoop size sigma (k + 1) (tick size foods n (sigma k) e).foods
        (tick size foods n (sigma k) e).n (done ++ [h2])
        (rest ++ (tick size foods n (sigma k) e).baby.toList)) ∧
    (∀ (k2 : Nat) (f2 : List Food) (n2 : Nat) (d2 todo : List Entity),
      (stepLoop size sigma k2 f2 n2 d2 todo).1 =
        d2 ++ (stepLoop size sigma k2 f2 n2 [] todo).1) ∧
    (∀ (e2 : Entity) (rest2 : List Entity) (k2 : Nat) (f2 : List Food) (n2 : Nat)
        (d2 : List Entity), survive (tick size f2 n2 (sigma k2) e2).ent = true →
      stepLoop size sigma k2 f2 n2 d2 (e2 :: rest2) =
        stepLoop size sigma (k2 + 1) (tick size f2 n2 (sigma k2) e2).foods
          (tick size f2 n2 (sigma k2) e2).n (d2 ++ [(tick size f2 n2 (sigma k2) e2).ent])
          (rest2 ++ (tick size f2 n2 (sigma k2) e2).baby.toList)) ∧
    (∀ (st : SimState) (rho : Option (Int × Int)),
      step st sigma rho =
        foodGenerate
          { st with
            entities := (stepLoop st.mapSize sigma 0 st.foods st.nEntities [] st.entities).1,
            foods := (stepLoop st.mapSize sigma 0 st.foods st.nEntities [] st.entities).2.1,
            nEntities := (stepLoop st.mapSize sigma 0 st.foods st.nEntities [] st.entities).2.2,
            saveTime := saveSetTime (st.saveTime + 1) } rho) ∧
    (∀ (st : SimState) (rho : Option (Int × Int)),
      0 ≤ st.saveTime → st.saveTime + 1 < SAVE_TIME_MAX →
      (step st sigma rho).saveTime = st.saveTime + 1) := by
  refine ⟨?_, ?_, ?_, ?_, ?_⟩
  · conv_lhs => rw [stepLoop]
    rw [if_neg (by rw [hdeath]; simp)]
    simp only [List.cons_append, List.take_succ_cons, List.take_zero, List.drop_succ_cons,
      List.drop_zero]
  · intro k2 f2 n2 d2 todo
    exact stepLoop_done_prefix size sigma k2 f2 n2 d2 todo
  · intro e2 rest2 k2 f2 n2 d2 hs
    conv_lhs => rw [stepLoop]
    rw [if_pos hs]
  · intro st rho
    rfl
  · intro st rho h0 h1
    rw [step]
    rw [foodGenerate_saveTime]
    show saveSetTime (st.saveTime + 1) = st.saveTime + 1
    rw [saveSetTime, if_pos ⟨by omega, h1⟩]

/-- C4 witness: a concrete dying agent (energy 1, no food) followed by a
second agent: the loop equation moves the second agent to the finished side
unticked, and the time counter of a concrete state advances by one. -/
theorem step_removal_skip_witness :
    (stepLoop ⟨5, 5⟩ (fun _ => 0) 0 [] 1 [] [⟨2, 2, 1, 0, 0, 1⟩, ⟨1, 1, 5, 0, 0, 2⟩] =
      stepLoop ⟨5, 5⟩ (fun _ => 0) 1
        (tick ⟨5, 5⟩ [] 1 0 ⟨2, 2, 1, 0, 0, 1⟩).foods
        (tick ⟨5, 5⟩ [] 1 0 ⟨2, 2, 1, 0, 0, 1⟩).n ([] ++ [⟨1, 1, 5, 0, 0, 2⟩])
        ([] ++ (tick ⟨5, 5⟩ [] 1 0 ⟨2, 2, 1, 0, 0, 1⟩).baby.toList)) ∧
    (step ⟨[], [], 0, ⟨5, 5⟩, 3, 50⟩ (fun _ => 0) none).saveTime = 3 + 1 := by
  have h := step_removal_skip ⟨5, 5⟩ (fun _ => 0) 0 [] 1 [] ⟨2, 2, 1, 0, 0, 1⟩
    ⟨1, 1, 5, 0, 0, 2⟩ [] (by decide)
  exact ⟨h.1, h.2.2.2.2 ⟨[], [], 0, ⟨5, 5⟩, 3, 50⟩ none (by norm_num)
    (by norm_num [SAVE_TIME_MAX])⟩

/-- C7 counterexample: the claim says load first clears both collections; in
fact the agent collection is cleared only when the agent section starts, so a
file truncated in the food section leaves the old agents in place — the
collections do not hold exactly the records read before the truncation. -/
theorem load_truncation_counterexample :
    ((load ⟨[⟨1, 1, 70⟩], [⟨2, 2, 50, 0, 0, 1⟩], 1, ⟨5, 5⟩, 0, 50⟩ 0
        [0, 0, 0, 0, 0, 0, 0, 11, 0, 0, 0, 0, 0, 0, 0, 22, 0, 5, 0, 5, 0, 100]).2.2
      = some "food.x") ∧
    (load ⟨[⟨1, 1, 70⟩], [⟨2, 2, 50, 0, 0, 1⟩], 1, ⟨5, 5⟩, 0, 50⟩ 0
        [0, 0, 0, 0, 0, 0, 0, 11, 0, 0, 0, 0, 0, 0, 0, 22, 0, 5, 0, 5, 0, 100]).1.foods
      = [] ∧
    (load ⟨[⟨1, 1, 70⟩], [⟨2, 2, 50, 0, 0, 1⟩], 1, ⟨5, 5⟩, 0, 50⟩ 0
        [0, 0, 0, 0, 0, 0, 0, 11, 0, 0, 0, 0, 0, 0, 0, 22, 0, 5, 0, 5, 0, 100]).1.entities
      = [⟨2, 2, 50, 0, 0, 1⟩] ∧
    (load ⟨[⟨1, 1, 70⟩], [⟨2, 2, 50, 0, 0, 1⟩], 1, ⟨5, 5⟩, 0, 50⟩ 0
        [0, 0, 0, 0, 0, 0, 0, 11, 0, 0, 0, 0, 0, 0, 0, 22, 0, 5, 0, 5, 0, 100]).1.entities
      ≠ [] := by
  refine ⟨?_, ?_, ?_, ?_⟩ <;>
    simp [load, readIntB, fromBytesBE, readFoodsLoop, saveSetTime, SAVE_TIME_MAX]

end RSim
